import Mathlib

/- Shallow embedding of the MCP tool-routing protocol of the ai-chat-agent
repository: the calculator tool (tools.py), the protocol server
(mcp_server.py), the client stub (mcp_client.py) and the integration
layer (mcp_integration.py).  Python dicts keyed by strings are modelled
as insertion-ordered association lists, JSON messages as structures over
the fields the code actually reads, and the asyncio transport as explicit
data (a list of input lines on the server side, an outcome oracle on the
client side). -/

/-! ## Association lists (Python dict model) -/

/-- Lookup in an insertion-ordered association list; models Python
`d[k]` / `k in d` on a string-keyed dict. -/
def alookup {α : Type} : List (String × α) → String → Option α
  | [], _ => none
  | p :: l, x => if p.1 = x then some p.2 else alookup l x

/-- Python dict assignment `d[k] = v`: replaces the value in place if the
key is present, otherwise appends the binding at the end. -/
def dictSet {α : Type} (l : List (String × α)) (k : String) (v : α) : List (String × α) :=
  if l.any (fun p => decide (p.1 = k)) then l.map (fun p => if p.1 = k then (k, v) else p)
  else l ++ [(k, v)]

/-- Substring containment, used to state that an error message names the
missing tool. -/
def strContains (s sub : String) : Prop := ∃ p q : String, s = p ++ sub ++ q

/-! ## Calculator tool (tools.py, Calculator.execute)

The source strips the expression, rejects any character outside a
whitelist, and then calls Python `eval` on it, formatting the numeric
result and converting `ZeroDivisionError` / `SyntaxError` into error
strings.  `eval` is modelled here on the arithmetic fragment the
whitelist is meant to admit: integer literals, `+`, `-`, `*`, `/`
(true division, producing a float), unary signs and parentheses.
Characters the whitelist admits but the fragment does not cover
(`.`, `,`, `e`, `E`, `**`, `//`, leading-zero literals) are mapped to
the syntax-error outcome; no verified claim evaluates such an input. -/

/-- A Python float value, modelled as an unnormalized exact fraction
(`den ≠ 0` holds for every value the evaluator builds). -/
structure PyFloat where
  num : Int
  den : Int
deriving DecidableEq, Repr

/-- Python numbers as produced by `eval` on this fragment: ints stay
ints, any division produces a float. -/
inductive PyNum where
  | int (n : Int)
  | float (f : PyFloat)
deriving DecidableEq, Repr

def PyNum.toF : PyNum → PyFloat
  | .int n => ⟨n, 1⟩
  | .float f => f

def pyNeg : PyNum → PyNum
  | .int n => .int (-n)
  | .float f => .float ⟨-f.num, f.den⟩

def fAdd (a b : PyFloat) : PyFloat := ⟨a.num * b.den + b.num * a.den, a.den * b.den⟩
def fSub (a b : PyFloat) : PyFloat := ⟨a.num * b.den - b.num * a.den, a.den * b.den⟩
def fMul (a b : PyFloat) : PyFloat := ⟨a.num * b.num, a.den * b.den⟩
def fDiv (a b : PyFloat) : PyFloat := ⟨a.num * b.den, a.den * b.num⟩

/-- Python binary arithmetic: int op int stays int, otherwise float. -/
def pyBin (f : Int → Int → Int) (g : PyFloat → PyFloat → PyFloat) : PyNum → PyNum → PyNum
  | .int a, .int b => .int (f a b)
  | a, b => .float (g a.toF b.toF)

def pyAdd : PyNum → PyNum → PyNum := pyBin (· + ·) fAdd
def pySub : PyNum → PyNum → PyNum := pyBin (· - ·) fSub
def pyMul : PyNum → PyNum → PyNum := pyBin (· * ·) fMul

inductive Tok where
  | num (n : Int)
  | plus | minus | star | slash | lparen | rparen
deriving DecidableEq, Repr

def digitsVal (ds : List Char) : Int :=
  ((ds.foldl (fun a c => a * 10 + (c.toNat - 48)) 0 : Nat) : Int)

/-- Fuel-driven tokenizer over the whitelisted characters; consumes at
least one character per step, so fuel `length + 1` always suffices. -/
def tokenizeGo : Nat → List Char → Option (List Tok)
  | 0, _ => none
  | _ + 1, [] => some []
  | fuel + 1, c :: cs =>
    if c = ' ' then tokenizeGo fuel cs
    else if c.isDigit then
      let ds := (c :: cs).takeWhile Char.isDigit
      let rest := (c :: cs).dropWhile Char.isDigit
      (tokenizeGo fuel rest).map (fun ts => Tok.num (digitsVal ds) :: ts)
    else if c = '+' then (tokenizeGo fuel cs).map (Tok.plus :: ·)
    else if c = '-' then (tokenizeGo fuel cs).map (Tok.minus :: ·)
    else if c = '*' then (tokenizeGo fuel cs).map (Tok.star :: ·)
    else if c = '/' then (tokenizeGo fuel cs).map (Tok.slash :: ·)
    else if c = '(' then (tokenizeGo fuel cs).map (Tok.lparen :: ·)
    else if c = ')' then (tokenizeGo fuel cs).map (Tok.rparen :: ·)
    else none

def tokenize (cs : List Char) : Option (List Tok) := tokenizeGo (cs.length + 1) cs

inductive PyExpr where
  | lit (n : Int)
  | pos (e : PyExpr)
  | neg (e : PyExpr)
  | add (a b : PyExpr)
  | sub (a b : PyExpr)
  | mul (a b : PyExpr)
  | div (a b : PyExpr)
deriving DecidableEq, Repr

/-- Modes of the recursive-descent parser: additive level, multiplicative
level, atoms, plus the left-associative continuation loops. -/
inductive PMode where
  | addsub
  | addsubLoop (e : PyExpr)
  | muldiv
  | muldivLoop (e : PyExpr)
  | atom
deriving Repr

/-- Recursive-descent parser for the Python expression grammar restricted
to `+ - * /`, unary signs, integer literals and parentheses, with the
usual precedence (`* /` over `+ -`, left-associative). Structural on
fuel so that concrete runs reduce definitionally. -/
def parseGo : Nat → PMode → List Tok → Option (PyExpr × List Tok)
  | 0, _, _ => none
  | _ + 1, PMode.atom, Tok.num n :: rest => some (PyExpr.lit n, rest)
  | fuel + 1, PMode.atom, Tok.minus :: rest =>
      (parseGo fuel PMode.atom rest).map (fun p => (PyExpr.neg p.1, p.2))
  | fuel + 1, PMode.atom, Tok.plus :: rest =>
      (parseGo fuel PMode.atom rest).map (fun p => (PyExpr.pos p.1, p.2))
  | fuel + 1, PMode.atom, Tok.lparen :: rest =>
      match parseGo fuel PMode.addsub rest with
      | some (e, Tok.rparen :: r) => some (e, r)
      | _ => none
  | _ + 1, PMode.atom, _ => none
  | fuel + 1, PMode.muldiv, ts =>
      match parseGo fuel PMode.atom ts with
      | some (e, r) => parseGo fuel (PMode.muldivLoop e) r
      | none => none
  | fuel + 1, PMode.muldivLoop e, Tok.star :: ts =>
      match parseGo fuel PMode.atom ts with
      | some (e2, r) => parseGo fuel (PMode.muldivLoop (PyExpr.mul e e2)) r
      | none => none
  | fuel + 1, PMode.muldivLoop e, Tok.slash :: ts =>
      match parseGo fuel PMode.atom ts with
      | some (e2, r) => parseGo fuel (PMode.muldivLoop (PyExpr.div e e2)) r
      | none => none
  | _ + 1, PMode.muldivLoop e, ts => some (e, ts)
  | fuel + 1, PMode.addsub, ts =>
      match parseGo fuel PMode.muldiv ts with
      | some (e, r) => parseGo fuel (PMode.addsubLoop e) r
      | none => none
  | fuel + 1, PMode.addsubLoop e, Tok.plus :: ts =>
      match parseGo fuel PMode.muldiv ts with
      | some (e2, r) => parseGo fuel (PMode.addsubLoop (PyExpr.add e e2)) r
      | none => none
  | fuel + 1, PMode.addsubLoop e, Tok.minus :: ts =>
      match parseGo fuel PMode.muldiv ts with
      | some (e2, r) => parseGo fuel (PMode.addsubLoop (PyExpr.sub e e2)) r
      | none => none
  | _ + 1, PMode.addsubLoop e, ts => some (e, ts)

def parseTop (toks : List Tok) : Option PyExpr :=
  match parseGo (3 * toks.length + 3) PMode.addsub toks with
  | some (e, []) => some e
  | _ => none

/-- Evaluation of the parsed expression; the only runtime error on this
fragment is ZeroDivisionError, signalled as `Except.error ()`. Division
is Python true division: it always produces a float. -/
def evalExpr : PyExpr → Except Unit PyNum
  | .lit n => .ok (.int n)
  | .pos e => evalExpr e
  | .neg e => (evalExpr e).map pyNeg
  | .add a b => (evalExpr a).bind fun x => (evalExpr b).map fun y => pyAdd x y
  | .sub a b => (evalExpr a).bind fun x => (evalExpr b).map fun y => pySub x y
  | .mul a b => (evalExpr a).bind fun x => (evalExpr b).map fun y => pyMul x y
  | .div a b => (evalExpr a).bind fun x => (evalExpr b).bind fun y =>
      if y.toF.num = 0 then .error () else .ok (.float (fDiv x.toF y.toF))

/-- Decimal rendering of a non-integral float after rounding to six
places (halves away from zero); approximates Python
`str(round(x, 6))`.  No verified claim reaches this branch (all claim
inputs yield ints or integral floats). -/
def floatStr (f : PyFloat) : String :=
  let a := if f.den < 0 then -f.num else f.num
  let b := if f.den < 0 then -f.den else f.den
  let x := a * 1000000
  let fl := Int.fdiv x b
  let m := if 2 * (x - fl * b) < b then fl else fl + 1
  let sign := if m < 0 then "-" else ""
  let n := m.natAbs
  let ip := n / 1000000
  let fp := n % 1000000
  let fs := toString fp
  let padded := String.mk (List.replicate (6 - fs.length) '0') ++ fs
  let trimmed := String.mk (padded.toList.reverse.dropWhile (fun c => c = '0')).reverse
  let frac := if trimmed = "" then "0" else trimmed
  sign ++ toString ip ++ "." ++ frac

/-- Result formatting from the source: a float that `is_integer()` is
converted to int before `str`; other floats are rounded to 6 places. -/
def formatPyNum : PyNum → String
  | .int n => toString n
  | .float f => if f.num % f.den = 0 then toString (f.num / f.den) else floatStr f

/-- Python `str.strip()`: drop whitespace from both ends. -/
def pyStrip (s : String) : String :=
  String.mk (((s.toList.dropWhile Char.isWhitespace).reverse.dropWhile Char.isWhitespace).reverse)

/-- The character whitelist from the source (`allowed_chars`). -/
def allowedChars : List Char := "0123456789+-*/().,eE ".toList

def invalidCharsMsg : String :=
  "Error: Invalid characters in expression. Only numbers, operators (+, -, *, /), parentheses, and spaces are allowed."

/-- Calculator.execute from tools.py: strip, whitelist check, eval,
format; ZeroDivisionError and SyntaxError become error strings.  The
source's character replacements of two mojibake characters are
identities here: those characters are outside the whitelist that was
just checked. -/
def Calculator.execute (expression : String) : String :=
  if (pyStrip expression).toList.all (fun c => allowedChars.contains c) then
    match tokenize (pyStrip expression).toList with
    | none => "Error: Invalid mathematical expression"
    | some toks =>
      match parseTop toks with
      | none => "Error: Invalid mathematical expression"
      | some ast =>
        match evalExpr ast with
        | Except.ok v => formatPyNum v
        | Except.error _ => "Error: Division by zero"
  else invalidCharsMsg

/-! ## Wire data model (mcp_server.py / mcp_client.py)

JSON messages are modelled as structures over exactly the fields the
code reads.  A JSON-RPC id is an optional integer (absent on
notifications, `null` on parse errors). -/

structure ErrorObj where
  code : Int
  message : String
deriving DecidableEq, Repr

structure ContentItem where
  ctype : String
  text : String
deriving DecidableEq, Repr

/-- ToolDescriptor: the server's static tool metadata.  The nested JSON
input schema is flattened to its single property/required key, which is
all the claims distinguish. -/
structure ToolDescriptor where
  name : String
  description : String
  schemaKey : String
deriving DecidableEq, Repr

/-- The method-specific result payloads the server can produce. -/
inductive ResultObj where
  | initResult (protocolVersion serverName serverVersion : String)
  | toolsList (tools : List ToolDescriptor)
  | callContent (content : List ContentItem)
deriving DecidableEq, Repr

structure Response where
  id : Option Int
  result : Option ResultObj
  error : Option ErrorObj
deriving DecidableEq, Repr

/-- Arguments of a tools/call request; the code reads only the
`expression` and `query` keys (with default `""`). -/
structure Arguments where
  expression : Option String
  query : Option String
deriving DecidableEq, Repr

structure Params where
  name : Option String
  arguments : Arguments
deriving DecidableEq, Repr

structure Request where
  id : Option Int
  method : String
  params : Params
deriving DecidableEq, Repr

def noParams : Params := ⟨none, ⟨none, none⟩⟩

def toolsListReq (i : Int) : Request := ⟨some i, "tools/list", noParams⟩

/-! ## Protocol server (mcp_server.py, MCPServer) -/

/-- The registry entry for the calculator tool, from MCPServer.__init__. -/
def calculatorDesc : ToolDescriptor :=
  ⟨"calculator", "Perform mathematical calculations and solve equations", "expression"⟩

/-- The registry entry for the wikipedia tool, from MCPServer.__init__. -/
def wikipediaDesc : ToolDescriptor :=
  ⟨"wikipedia", "Search Wikipedia for information about topics, people, places", "query"⟩

/-- Server state: the construction-time tool registry (insertion-ordered
dict) and the wikipedia invoker.  Wikipedia.execute performs network
lookups, so it is modelled as an abstract text-in/text-out function. -/
structure MCPServer where
  tools : List (String × ToolDescriptor)
  wikipediaExec : String → String

/-- The server as built by MCPServer.__init__. -/
def mkServer (wiki : String → String) : MCPServer :=
  ⟨[("calculator", calculatorDesc), ("wikipedia", wikipediaDesc)], wiki⟩

/-- Python `f"...{None}..."` rendering of an optional string. -/
def optStr : Option String → String
  | some s => s
  | none => "None"

/-- MCPServer.handle_request: dispatch on the method string; `none`
models Python `return None` (no response).  The except branch that maps
an exception from a tool invoker to error -32603 is unreachable here
because both modelled invokers are total functions, matching the
source's tool contract that invokers catch their own failures. -/
def handle_request (s : MCPServer) (req : Request) : Option Response :=
  if req.method = "initialize" then
    some ⟨req.id, some (ResultObj.initResult "2024-11-05" "ai-chat-agent-mcp-server" "1.0.0"), none⟩
  else if req.method = "notifications/initialized" then
    none
  else if req.method = "tools/list" then
    some ⟨req.id, some (ResultObj.toolsList (s.tools.map Prod.snd)), none⟩
  else if req.method = "tools/call" then
    if req.params.name = some "calculator" then
      some ⟨req.id, some (ResultObj.callContent
        [⟨"text", Calculator.execute ((req.params.arguments.expression).getD "")⟩]), none⟩
    else if req.params.name = some "wikipedia" then
      some ⟨req.id, some (ResultObj.callContent
        [⟨"text", s.wikipediaExec ((req.params.arguments.query).getD "")⟩]), none⟩
    else
      some ⟨req.id, none, some ⟨-32601, "Tool '" ++ optStr req.params.name ++ "' not found"⟩⟩
  else
    some ⟨req.id, none, some ⟨-32601, "Method '" ++ req.method ++ "' not found"⟩⟩

/-- One line read by the server's stdio loop: either it parsed as a
request object, or json.loads raised (carrying the exception text). -/
inductive Line where
  | parsed (req : Request)
  | malformed (msg : String)
deriving DecidableEq, Repr

/-- The -32700 response emitted by the except branch of run_stdio. -/
def parseErrorResponse (msg : String) : Response :=
  ⟨none, none, some ⟨-32700, "Parse error: " ++ msg⟩⟩

/-- MCPServer.run_stdio: read lines until end of stream, answer each
parsed request (skipping `None` responses), emit a parse-error response
for a line that fails to parse, and keep looping either way. -/
def run_stdio (s : MCPServer) : List Line → List Response
  | [] => []
  | Line.parsed req :: rest =>
    (match handle_request s req with
     | some resp => resp :: run_stdio s rest
     | none => run_stdio s rest)
  | Line.malformed msg :: rest => parseErrorResponse msg :: run_stdio s rest

/-! ## Client stub (mcp_client.py, MCPClient) -/

/-- Client state: connected flag, cached tool dict, last allocated
request id (MCPClient.__init__ starts the counter at 0). -/
structure MCPClient where
  connected : Bool
  tools : List (String × ToolDescriptor)
  request_id : Int
deriving DecidableEq, Repr

def MCPClient.new : MCPClient := ⟨false, [], 0⟩

/-- MCPClient._next_id: increment then return. -/
def next_id (c : MCPClient) : Int × MCPClient :=
  (c.request_id + 1, { c with request_id := c.request_id + 1 })

/-- The ids allocated by `n` successive _next_id calls. -/
def allocIds (c : MCPClient) : Nat → List Int
  | 0 => []
  | n + 1 =>
    let p := next_id c
    p.1 :: allocIds p.2 n

/-- The response-consumption logic of MCPClient.call_tool: a result with
a first content item of type text yields that text, an error response
yields the synthesized "Tool error: <message>" string, anything else
yields None. -/
def call_tool_consume (resp : Option Response) : Option String :=
  match resp with
  | none => none
  | some r =>
    match r.result with
    | some res =>
      (match res with
       | ResultObj.callContent (item :: _) =>
         if item.ctype = "text" then some item.text else none
       | _ => none)
    | none =>
      match r.error with
      | some e => some ("Tool error: " ++ e.message)
      | none => none

/-- One round of a call together with the wire traffic it caused. -/
structure CallTrace where
  request : Request
  response : Option Response
  result : Option String
deriving DecidableEq, Repr

/-- MCPClient.call_tool against a server reached over the one-line-per-
read stdio transport: fail fast (None, nothing sent) when not connected
or the name is not in the cached tool dict; otherwise allocate the next
id, send the tools/call request, read the single matching response and
extract its payload. -/
def call_tool (s : MCPServer) (c : MCPClient) (toolName : String) (arguments : Arguments) :
    Option String × MCPClient × Option CallTrace :=
  if c.connected = true ∧ (alookup c.tools toolName).isSome = true then
    let rid := c.request_id + 1
    let req : Request := ⟨some rid, "tools/call", ⟨some toolName, arguments⟩⟩
    let resp := handle_request s req
    (call_tool_consume resp, { c with request_id := rid }, some ⟨req, resp, call_tool_consume resp⟩)
  else (none, c, none)

/-- Sequentially issued call_tool invocations on one session (the spec's
one-at-a-time discipline): each call's response is the line the server
produced for that call's request. -/
def run_calls (s : MCPServer) (c : MCPClient) :
    List (String × Arguments) → MCPClient × List CallTrace
  | [] => (c, [])
  | (nm, ar) :: rest =>
    let step := call_tool s c nm ar
    let next := run_calls s step.2.1 rest
    (next.1, step.2.2.toList ++ next.2)

/-- Transport outcomes of the four awaited steps of MCPClient.connect:
subprocess spawn, the initialize send+read exchange, the initialized
notification send, and the tools/list send+read exchange inside
_load_tools.  `Except.error` models a raised exception, `Option`
models an empty read (stream closed). -/
structure ConnectOracle where
  spawn : Except String Unit
  initExchange : Except String (Option Response)
  notifSend : Except String Unit
  toolsExchange : Except String (Option Response)
deriving Repr

/-- The tools advertised by a tools/list result payload, `[]` when the
result has another shape (`result.get("tools", [])`). -/
def resultTools : ResultObj → List ToolDescriptor
  | ResultObj.toolsList ts => ts
  | _ => []

/-- Python `server_command.startswith("stdio://")`, over character
lists. -/
def hasStdioScheme (cmd : String) : Bool := cmd.toList.take 8 == "stdio://".toList

/-- MCPClient.connect: requires the stdio:// scheme, spawns the server,
performs the initialize exchange, sends the initialized notification and
runs _load_tools; any exception up to the notification is caught and
yields False, while _load_tools catches its own exceptions (a transport
failure there is swallowed and the client still ends up connected). -/
def connect (c : MCPClient) (server_command : String) (o : ConnectOracle) :
    Bool × MCPClient :=
  if hasStdioScheme server_command = true then
    match o.spawn with
    | Except.error _ => (false, c)
    | Except.ok _ =>
      let c1 := { c with request_id := c.request_id + 1 }
      match o.initExchange with
      | Except.error _ => (false, c1)
      | Except.ok none => (false, c1)
      | Except.ok (some resp) =>
        if resp.result.isSome then
          match o.notifSend with
          | Except.error _ => (false, c1)
          | Except.ok _ =>
            let c2 := { c1 with request_id := c1.request_id + 1 }
            let c3 :=
              match o.toolsExchange with
              | Except.error _ => c2
              | Except.ok none => c2
              | Except.ok (some r) =>
                match r.result with
                | some res => { c2 with tools := (resultTools res).map (fun t : ToolDescriptor => (t.name, t)) }
                | none => c2
            (true, { c3 with connected := true })
        else (false, c1)
  else (false, c)

/-! ## Integration layer (mcp_integration.py, MCPIntegration) -/

/-- A connected client as the integration layer sees it: its position in
the configured-server order (its identity) and its cached tool dict. -/
structure ClientConn where
  cid : Nat
  tools : List (String × ToolDescriptor)
deriving DecidableEq, Repr

/-- An entry of available_tools: owning client, original tool name and
descriptor. -/
structure ToolEntry where
  client : Nat
  tool_name : String
  info : ToolDescriptor
deriving DecidableEq, Repr

/-- MCPIntegration._load_mcp_tools, one client: iterate its tool dict in
order and assign into available_tools (dict overwrite). -/
def load_tools_from (acc : List (String × ToolEntry)) (c : ClientConn) :
    List (String × ToolEntry) :=
  c.tools.foldl (fun m p => dictSet m p.1 ⟨c.cid, p.1, p.2⟩) acc

/-- MCPIntegration._load_mcp_tools over all connected clients, in
connection order. -/
def load_mcp_tools (clients : List ClientConn) : List (String × ToolEntry) :=
  clients.foldl load_tools_from []

/-- MCPIntegration.initialize, with each configured server's connect
outcome given as `some cached-tool-dict` (connected) or `none` (failed):
keep the clients that connected, fail if none did, otherwise build
available_tools. -/
def initAll (outcomes : List (Option (List (String × ToolDescriptor)))) :
    Bool × List ClientConn × List (String × ToolEntry) :=
  let clients := outcomes.enum.filterMap (fun p => p.2.map (fun ts => ClientConn.mk p.1 ts))
  if clients.isEmpty then (false, clients, [])
  else (true, clients, load_mcp_tools clients)

/-! ## Association-list lemmas -/

lemma alookup_eq_none_of_not_mem {α : Type} (l : List (String × α)) (x : String)
    (h : x ∉ l.map Prod.fst) : alookup l x = none := by
  induction l with
  | nil => rfl
  | cons a t ih =>
    simp only [List.map_cons, List.mem_cons, not_or] at h
    have hax : ¬ a.1 = x := fun hx => h.1 hx.symm
    simp only [alookup, if_neg hax]
    exact ih h.2

lemma mem_of_alookup_isSome {α : Type} (l : List (String × α)) (x : String)
    (h : (alookup l x).isSome = true) : x ∈ l.map Prod.fst := by
  induction l with
  | nil => simp [alookup] at h
  | cons a t ih =>
    by_cases hx : a.1 = x
    · simp [hx]
    · simp only [alookup, if_neg hx] at h
      simp [ih h]

lemma any_key_of_mem {α : Type} (l : List (String × α)) (k : String)
    (h : k ∈ l.map Prod.fst) : l.any (fun p => decide (p.1 = k)) = true := by
  induction l with
  | nil => simp at h
  | cons a t ih =>
    simp only [List.map_cons, List.mem_cons] at h
    rcases h with h | h
    · simp [List.any_cons, h]
    · simp [List.any_cons, ih h]

lemma not_mem_of_not_any {α : Type} (l : List (String × α)) (k : String)
    (h : ¬ l.any (fun p => decide (p.1 = k)) = true) : k ∉ l.map Prod.fst :=
  fun hmem => h (any_key_of_mem l k hmem)

lemma alookup_replace_self {α : Type} (l : List (String × α)) (k : String) (v : α)
    (hmem : k ∈ l.map Prod.fst) :
    alookup (l.map (fun p => if p.1 = k then (k, v) else p)) k = some v := by
  induction l with
  | nil => simp at hmem
  | cons a t ih =>
    by_cases hk : a.1 = k
    · simp [alookup, hk]
    · have : k ∈ t.map Prod.fst := by
        simp only [List.map_cons, List.mem_cons] at hmem
        rcases hmem with h | h
        · exact absurd h.symm hk
        · exact h
      simp only [List.map_cons, if_neg hk, alookup, if_neg hk]
      exact ih this

lemma alookup_replace_ne {α : Type} (l : List (String × α)) (k : String) (v : α)
    (x : String) (h : x ≠ k) :
    alookup (l.map (fun p => if p.1 = k then (k, v) else p)) x = alookup l x := by
  induction l with
  | nil => rfl
  | cons a t ih =>
    by_cases hk : a.1 = k
    · have hax : ¬ a.1 = x := fun hx => h (hx ▸ hk : x = k)
      have hkx : ¬ k = x := fun hx => h hx.symm
      simp only [List.map_cons, if_pos hk, alookup, if_neg hkx, if_neg hax]
      exact ih
    · simp only [List.map_cons, if_neg hk, alookup]
      by_cases hax : a.1 = x
      · simp [hax]
      · simp only [if_neg hax]
        exact ih

lemma alookup_append_self {α : Type} (l : List (String × α)) (k : String) (v : α)
    (h : k ∉ l.map Prod.fst) : alookup (l ++ [(k, v)]) k = some v := by
  induction l with
  | nil => simp [alookup]
  | cons a t ih =>
    simp only [List.map_cons, List.mem_cons, not_or] at h
    have hak : ¬ a.1 = k := fun hx => h.1 hx.symm
    simp only [List.cons_append, alookup, if_neg hak]
    exact ih h.2

lemma alookup_append_ne {α : Type} (l : List (String × α)) (k : String) (v : α)
    (x : String) (h : x ≠ k) : alookup (l ++ [(k, v)]) x = alookup l x := by
  induction l with
  | nil =>
    have hkx : ¬ k = x := fun hx => h hx.symm
    simp [alookup, if_neg hkx]
  | cons a t ih =>
    simp only [List.cons_append, alookup]
    by_cases hax : a.1 = x
    · simp [hax]
    · simp only [if_neg hax]
      exact ih

lemma alookup_dictSet_self {α : Type} (l : List (String × α)) (k : String) (v : α) :
    alookup (dictSet l k v) k = some v := by
  unfold dictSet
  split
  · next hany =>
    rcases List.any_eq_true.mp hany with ⟨p, hp, hdec⟩
    exact alookup_replace_self l k v (List.mem_map.mpr ⟨p, hp, of_decide_eq_true hdec⟩)
  · next hany => exact alookup_append_self l k v (not_mem_of_not_any l k hany)

lemma alookup_dictSet_ne {α : Type} (l : List (String × α)) (k : String) (v : α)
    (x : String) (h : x ≠ k) : alookup (dictSet l k v) x = alookup l x := by
  unfold dictSet
  split
  · exact alookup_replace_ne l k v x h
  · exact alookup_append_ne l k v x h

lemma keys_dictSet_nodup {α : Type} (l : List (String × α)) (k : String) (v : α)
    (h : (l.map Prod.fst).Nodup) : ((dictSet l k v).map Prod.fst).Nodup := by
  unfold dictSet
  split
  · have heq : (l.map (fun p => if p.1 = k then (k, v) else p)).map Prod.fst = l.map Prod.fst := by
      rw [List.map_map]
      apply List.map_congr_left
      intro p _
      by_cases hp : p.1 = k
      · simp [Function.comp, hp]
      · simp [Function.comp, hp]
    rw [heq]
    exact h
  · next hany =>
    have hk : k ∉ l.map Prod.fst := not_mem_of_not_any l k hany
    simp only [List.map_append, List.map_cons, List.map_nil]
    rw [List.nodup_append]
    exact ⟨h, List.nodup_singleton k, by simpa using fun hmem => hk hmem⟩

/-! ## Integration-layer lemmas -/

lemma alookup_loadList (cid : Nat) (ts : List (String × ToolDescriptor))
    (acc : List (String × ToolEntry)) (x : String)
    (hnd : (ts.map Prod.fst).Nodup) :
    alookup (ts.foldl (fun m p => dictSet m p.1 ⟨cid, p.1, p.2⟩) acc) x =
      (match alookup ts x with
       | some d => some ⟨cid, x, d⟩
       | none => alookup acc x) := by
  induction ts generalizing acc with
  | nil => rfl
  | cons a t ih =>
    simp only [List.map_cons, List.nodup_cons] at hnd
    simp only [List.foldl_cons]
    rw [ih _ hnd.2]
    by_cases hax : a.1 = x
    · have : alookup t x = none := by
        apply alookup_eq_none_of_not_mem
        rw [← hax]
        exact hnd.1
      rw [this]
      simp only [alookup, if_pos hax]
      rw [hax, alookup_dictSet_self]
    · simp only [alookup, if_neg hax]
      cases htx : alookup t x with
      | some d => rfl
      | none => rw [alookup_dictSet_ne _ _ _ _ (fun hx => hax hx.symm)]

lemma keys_loadList_nodup (cid : Nat) (ts : List (String × ToolDescriptor))
    (acc : List (String × ToolEntry)) (h : (acc.map Prod.fst).Nodup) :
    (((ts.foldl (fun m p => dictSet m p.1 ⟨cid, p.1, p.2⟩) acc)).map Prod.fst).Nodup := by
  induction ts generalizing acc with
  | nil => exact h
  | cons a t ih =>
    simp only [List.foldl_cons]
    exact ih _ (keys_dictSet_nodup _ _ _ h)

lemma keys_load_tools_from_nodup (acc : List (String × ToolEntry)) (c : ClientConn)
    (h : (acc.map Prod.fst).Nodup) : ((load_tools_from acc c).map Prod.fst).Nodup :=
  keys_loadList_nodup c.cid c.tools acc h

/-! ## Client-stub lemmas -/

lemma handle_request_toolscall_shape (s : MCPServer) (i : Option Int) (ps : Params) :
    ∃ resp, handle_request s ⟨i, "tools/call", ps⟩ = some resp ∧ resp.id = i := by
  unfold handle_request
  simp only [String.reduceEq, if_false, if_true, reduceIte]
  by_cases h1 : ps.name = some "calculator"
  · exact ⟨_, by rw [if_pos h1], rfl⟩
  · by_cases h2 : ps.name = some "wikipedia"
    · exact ⟨_, by rw [if_neg h1, if_pos h2], rfl⟩
    · exact ⟨_, by rw [if_neg h1, if_neg h2], rfl⟩

lemma allocIds_formula (n : Nat) : ∀ c : MCPClient,
    allocIds c n = (List.range n).map (fun k : Nat => c.request_id + (k : Int) + 1) := by
  induction n with
  | zero => intro c; rfl
  | succ m ih =>
    intro c
    show (c.request_id + 1) :: allocIds { c with request_id := c.request_id + 1 } m = _
    rw [ih]
    rw [List.range_succ_eq_map, List.map_cons, List.map_map]
    refine congrArg₂ _ (by simp) ?_
    apply List.map_congr_left
    intro k _
    simp only [Function.comp]
    push_cast
    ring

lemma run_calls_ids (s : MCPServer) : ∀ (calls : List (String × Arguments)) (c : MCPClient),
    c.connected = true →
    (∀ p ∈ calls, (alookup c.tools p.1).isSome = true) →
    (run_calls s c calls).2.map (fun t => t.request.id) =
      (List.range calls.length).map (fun k : Nat => some (c.request_id + (k : Int) + 1)) := by
  intro calls
  induction calls with
  | nil => intro c _ _; rfl
  | cons hd tl ih =>
    intro c hconn htools
    have hgate : c.connected = true ∧ (alookup c.tools hd.1).isSome = true :=
      ⟨hconn, htools hd (List.mem_cons_self hd tl)⟩
    simp only [run_calls, call_tool, if_pos hgate, Option.toList_some, List.cons_append,
      List.nil_append, List.map_cons]
    have ihx := ih { c with request_id := c.request_id + 1 } hconn
      (fun p hp => htools p (List.mem_cons_of_mem hd hp))
    rw [ihx]
    rw [List.length_cons, List.range_succ_eq_map, List.map_cons, List.map_map]
    refine congrArg₂ _ (by simp) ?_
    apply List.map_congr_left
    intro k _
    simp only [Function.comp]
    push_cast
    refine congrArg _ ?_
    ring

lemma run_calls_responses (s : MCPServer) : ∀ (calls : List (String × Arguments)) (c : MCPClient),
    c.connected = true →
    (∀ p ∈ calls, (alookup c.tools p.1).isSome = true) →
    ∀ t ∈ (run_calls s c calls).2, ∃ resp, t.response = some resp ∧ resp.id = t.request.id ∧
      t.result = call_tool_consume (some resp) := by
  intro calls
  induction calls with
  | nil => intro c _ _ t ht; simp [run_calls] at ht
  | cons hd tl ih =>
    intro c hconn htools t ht
    have hgate : c.connected = true ∧ (alookup c.tools hd.1).isSome = true :=
      ⟨hconn, htools hd (List.mem_cons_self hd tl)⟩
    simp only [run_calls, call_tool, if_pos hgate, Option.toList_some, List.cons_append,
      List.nil_append, List.mem_cons] at ht
    rcases ht with ht | ht
    · rcases handle_request_toolscall_shape s (some (c.request_id + 1))
        ⟨some hd.1, hd.2⟩ with ⟨resp, hresp, hid⟩
      subst ht
      exact ⟨resp, by simp [hresp], by simp [hid], by simp [hresp]⟩
    · exact ih { c with request_id := c.request_id + 1 } hconn
        (fun p hp => htools p (List.mem_cons_of_mem hd hp)) t ht

/-! ## Claim theorems -/

/-- C1: For every sequence of sequentially issued call_tool invocations on
one client session, each call's returned result is the one extracted from
the response the server produced for that call's request, that response
carries the same correlation id as the request, and the ids allocated by
the session's _next_id counter are the strictly increasing integers
1, 2, 3, ... when started from a fresh client. -/
theorem claim_C1_correlation :
    (∀ n : Nat, allocIds MCPClient.new n = (List.range n).map (fun k : Nat => (k : Int) + 1)) ∧
    (∀ (s : MCPServer) (c : MCPClient) (calls : List (String × Arguments)),
      c.connected = true →
      (∀ p ∈ calls, (alookup c.tools p.1).isSome = true) →
      ((run_calls s c calls).2.map (fun t => t.request.id) =
        (List.range calls.length).map (fun k : Nat => some (c.request_id + (k : Int) + 1))) ∧
      (∀ t ∈ (run_calls s c calls).2, ∃ resp, t.response = some resp ∧ resp.id = t.request.id ∧
        t.result = call_tool_consume (some resp))) := by
  constructor
  · intro n
    rw [allocIds_formula]
    apply List.map_congr_left
    intro k _
    show (MCPClient.new.request_id + (k : Int) + 1) = (k : Int) + 1
    simp [MCPClient.new]
  · intro s c calls h1 h2
    exact ⟨run_calls_ids s calls c h1 h2, run_calls_responses s calls c h1 h2⟩

def demoClient : MCPClient := ⟨true, [("calculator", calculatorDesc)], 2⟩

theorem claim_C1_witness :
    (run_calls (mkServer (fun q => q)) demoClient
        [("calculator", ⟨some "2+2*3", none⟩), ("calculator", ⟨some "1/0", none⟩)]).2.map
      (fun t => t.request.id) =
      (List.range 2).map (fun k : Nat => some ((2 : Int) + (k : Int) + 1)) :=
  (claim_C1_correlation.2 (mkServer (fun q => q)) demoClient
    [("calculator", ⟨some "2+2*3", none⟩), ("calculator", ⟨some "1/0", none⟩)]
    rfl (by decide)).1

/-- C2: A line that fails to parse makes run_stdio emit exactly one error
response, with code -32700 and id null, and the loop continues: the
remaining lines are processed independently, and in particular a
subsequent valid tools/list request is still answered normally. -/
theorem claim_C2_malformed_line :
    ∀ (s : MCPServer) (msg : String) (rest : List Line),
      run_stdio s (Line.malformed msg :: rest) = parseErrorResponse msg :: run_stdio s rest ∧
      parseErrorResponse msg = ⟨none, none, some ⟨-32700, "Parse error: " ++ msg⟩⟩ ∧
      (∀ i : Int, run_stdio s [Line.malformed msg, Line.parsed (toolsListReq i)] =
        [parseErrorResponse msg,
         ⟨some i, some (ResultObj.toolsList (s.tools.map Prod.snd)), none⟩]) :=
  fun s msg rest => ⟨rfl, rfl, fun i => rfl⟩

def okInitResponse : Response :=
  ⟨some 1, some (ResultObj.initResult "2024-11-05" "ai-chat-agent-mcp-server" "1.0.0"), none⟩

/-- Transport oracle in which the subprocess spawns, the initialize
exchange succeeds, the initialized notification is sent, but the
tools/list exchange inside _load_tools raises a transport error. -/
def toolsFailOracle : ConnectOracle :=
  ⟨Except.ok (), Except.ok (some okInitResponse), Except.ok (), Except.error "broken pipe"⟩

/-- C3 counterexample: connect reports success (and sets the connected
flag) even though the third handshake step, tools/list caching, hit a
transport failure — _load_tools swallows its own exceptions, so the
claim that success requires all three steps to complete is false. -/
theorem claim_C3_counterexample :
    toolsFailOracle.toolsExchange = Except.error "broken pipe" ∧
    (connect MCPClient.new "stdio://python3 mcp_server.py" toolsFailOracle).1 = true ∧
    (connect MCPClient.new "stdio://python3 mcp_server.py" toolsFailOracle).2.connected = true :=
  ⟨rfl, rfl, rfl⟩

/-- C3 (amended): connect returns success iff the command has the
stdio:// scheme, the spawn succeeds, the initialize exchange returns a
response carrying a result, and the initialized notification is sent
without failure; a transport failure during the tools/list caching step
is swallowed by _load_tools and does not affect the outcome.  Whenever
connect fails, the connected flag is left unchanged (hence false on a
fresh client). -/
theorem claim_C3_amended_connect :
    ∀ (c : MCPClient) (cmd : String) (o : ConnectOracle),
      ((connect c cmd o).1 = true ↔
        (hasStdioScheme cmd = true ∧ o.spawn = Except.ok () ∧
         (∃ resp, o.initExchange = Except.ok (some resp) ∧ resp.result.isSome = true) ∧
         o.notifSend = Except.ok ())) ∧
      ((connect c cmd o).1 = false → (connect c cmd o).2.connected = c.connected) := by
  intro c cmd o
  unfold connect
  by_cases hs : hasStdioScheme cmd = true
  · cases hspawn : o.spawn with
    | error e => simp [hs, hspawn]
    | ok u =>
      cases u
      cases hinit : o.initExchange with
      | error e => simp [hs, hspawn, hinit]
      | ok ro =>
        cases ro with
        | none => simp [hs, hspawn, hinit]
        | some resp =>
          by_cases hres : resp.result.isSome = true
          · cases hnotif : o.notifSend with
            | error e => simp [hs, hspawn, hinit, hres, hnotif]
            | ok u2 =>
              cases u2
              cases htools : o.toolsExchange with
              | error e => simp [hs, hspawn, hinit, hres, hnotif, htools]
              | ok ro2 =>
                cases ro2 with
                | none => simp [hs, hspawn, hinit, hres, hnotif, htools]
                | some r2 =>
                  cases hr2 : r2.result with
                  | none => simp [hs, hspawn, hinit, hres, hnotif, htools, hr2]
                  | some res2 => simp [hs, hspawn, hinit, hres, hnotif, htools, hr2]
          · simp [hs, hspawn, hinit, hres]
  · simp [hs]

def spawnFailOracle : ConnectOracle :=
  ⟨Except.error "spawn failure", Except.ok none, Except.ok (), Except.ok none⟩

theorem claim_C3_witness :
    (connect MCPClient.new "stdio://python3 mcp_server.py" spawnFailOracle).2.connected = false :=
  (claim_C3_amended_connect MCPClient.new "stdio://python3 mcp_server.py" spawnFailOracle).2
    (by decide)

/-- C4: A tools/call whose tool name is absent from the server's registry
is answered with error code -32601 whose message contains the missing
tool's name, and the read loop goes on to process the remaining lines
unchanged. -/
theorem claim_C4_unknown_tool :
    ∀ (w : String → String) (i : Option Int) (nm : String) (args : Arguments) (rest : List Line),
      alookup (mkServer w).tools nm = none →
      handle_request (mkServer w) ⟨i, "tools/call", ⟨some nm, args⟩⟩ =
        some ⟨i, none, some ⟨-32601, "Tool '" ++ nm ++ "' not found"⟩⟩ ∧
      strContains ("Tool '" ++ nm ++ "' not found") nm ∧
      run_stdio (mkServer w) (Line.parsed ⟨i, "tools/call", ⟨some nm, args⟩⟩ :: rest) =
        ⟨i, none, some ⟨-32601, "Tool '" ++ nm ++ "' not found"⟩⟩ :: run_stdio (mkServer w) rest := by
  intro w i nm args rest h
  have hne : ¬ nm = "calculator" ∧ ¬ nm = "wikipedia" := by
    constructor <;> intro hx <;> subst hx <;>
      simp [mkServer, alookup] at h
  have hmain : handle_request (mkServer w) ⟨i, "tools/call", ⟨some nm, args⟩⟩ =
      some ⟨i, none, some ⟨-32601, "Tool '" ++ nm ++ "' not found"⟩⟩ := by
    simp [handle_request, optStr, hne.1, hne.2]
  exact ⟨hmain, ⟨"Tool '", "' not found", rfl⟩, by simp [run_stdio, hmain]⟩

theorem claim_C4_witness :
    handle_request (mkServer (fun q => q)) ⟨some 5, "tools/call", ⟨some "frobnicate", ⟨none, none⟩⟩⟩ =
      some ⟨some 5, none, some ⟨-32601, "Tool 'frobnicate' not found"⟩⟩ :=
  (claim_C4_unknown_tool (fun q => q) (some 5) "frobnicate" ⟨none, none⟩ [] (by decide)).1

/-- C5: A tools/call of the calculator with expression "2+2*3" is
answered by a successful result whose single text content equals "8",
and with expression "1/0" by a successful result (no protocol error)
whose text is the division-by-zero error description. -/
theorem claim_C5_calculator_examples :
    ∀ (w : String → String) (i : Int),
      handle_request (mkServer w) ⟨some i, "tools/call", ⟨some "calculator", ⟨some "2+2*3", none⟩⟩⟩ =
        some ⟨some i, some (ResultObj.callContent [⟨"text", "8"⟩]), none⟩ ∧
      handle_request (mkServer w) ⟨some i, "tools/call", ⟨some "calculator", ⟨some "1/0", none⟩⟩⟩ =
        some ⟨some i, some (ResultObj.callContent [⟨"text", "Error: Division by zero"⟩]), none⟩ ∧
      strContains "Error: Division by zero" "Error" :=
  fun w i => ⟨rfl, rfl, "", ": Division by zero", rfl⟩

/-- C6: Every response handle_request emits carries the id of the
originating request and exactly one of a result or an error; the
notifications/initialized method is the only one that produces no
response. -/
theorem claim_C6_response_shape :
    ∀ (s : MCPServer) (req : Request),
      (∀ resp, handle_request s req = some resp →
        resp.id = req.id ∧
        ((resp.result.isSome = true ∧ resp.error = none) ∨
         (resp.result = none ∧ resp.error.isSome = true))) ∧
      (handle_request s req = none ↔ req.method = "notifications/initialized") := by
  intro s req
  constructor
  · intro resp hresp
    unfold handle_request at hresp
    split_ifs at hresp with h1 h2 h3 h4 h5 h6 <;>
      first
        | exact Option.noConfusion hresp
        | (simp only [Option.some.injEq] at hresp; subst hresp;
           exact ⟨rfl, Or.inl ⟨rfl, rfl⟩⟩)
        | (simp only [Option.some.injEq] at hresp; subst hresp;
           exact ⟨rfl, Or.inr ⟨rfl, rfl⟩⟩)
  · unfold handle_request
    split_ifs with h1 h2 h3 h4 h5 h6 <;> simp_all

theorem claim_C6_witness :
    handle_request (mkServer (fun q => q)) ⟨none, "notifications/initialized", noParams⟩ = none ∧
    ((⟨some 1, some (ResultObj.initResult "2024-11-05" "ai-chat-agent-mcp-server" "1.0.0"),
        none⟩ : Response).id = some 1) :=
  ⟨(claim_C6_response_shape (mkServer (fun q => q))
      ⟨none, "notifications/initialized", noParams⟩).2.mpr rfl,
   ((claim_C6_response_shape (mkServer (fun q => q)) ⟨some 1, "initialize", noParams⟩).1 _ rfl).1⟩

/-- C7: call_tool fails fast, returning the None indicator and sending
nothing, when the stub is not connected or the name is absent from the
cached tool set; and when a matching response carries an error object,
call_tool returns the synthesized "Tool error: <message>" string. -/
theorem claim_C7_fail_fast :
    (∀ (s : MCPServer) (c : MCPClient) (nm : String) (args : Arguments),
      (c.connected = false ∨ alookup c.tools nm = none) →
      call_tool s c nm args = (none, c, none)) ∧
    (∀ (r : Response) (e : ErrorObj), r.result = none → r.error = some e →
      call_tool_consume (some r) = some ("Tool error: " ++ e.message)) := by
  constructor
  · intro s c nm args h
    have hng : ¬ (c.connected = true ∧ (alookup c.tools nm).isSome = true) := by
      rcases h with h | h
      · intro hc
        rw [h] at hc
        exact Bool.false_ne_true hc.1
      · intro hc
        rw [h] at hc
        simp at hc
    simp [call_tool, hng]
  · intro r e h1 h2
    simp [call_tool_consume, h1, h2]

theorem claim_C7_witness :
    call_tool (mkServer (fun q => q)) MCPClient.new "calculator" ⟨none, none⟩ =
      (none, MCPClient.new, none) ∧
    call_tool_consume (some ⟨some 3, none, some ⟨-32601, "boom"⟩⟩) =
      some ("Tool error: " ++ "boom") :=
  ⟨claim_C7_fail_fast.1 (mkServer (fun q => q)) MCPClient.new "calculator" ⟨none, none⟩
      (Or.inl rfl),
   claim_C7_fail_fast.2 ⟨some 3, none, some ⟨-32601, "boom"⟩⟩ ⟨-32601, "boom"⟩ rfl rfl⟩

/-- C8: When two configured servers both connect and each exposes a tool
named x, the aggregated tool map built by initialize contains x exactly
once, bound to the entry of the server that connected last. -/
theorem claim_C8_last_wins :
    ∀ (ts1 ts2 : List (String × ToolDescriptor)) (x : String) (d2 : ToolDescriptor),
      (alookup ts1 x).isSome = true →
      alookup ts2 x = some d2 →
      (ts2.map Prod.fst).Nodup →
      (initAll [some ts1, some ts2]).1 = true ∧
      alookup (initAll [some ts1, some ts2]).2.2 x = some ⟨1, x, d2⟩ ∧
      ((initAll [some ts1, some ts2]).2.2.map Prod.fst).count x = 1 := by
  intro ts1 ts2 x d2 _h1 h2 hnd
  have hlook : alookup (load_mcp_tools [⟨0, ts1⟩, ⟨1, ts2⟩]) x = some ⟨1, x, d2⟩ := by
    show alookup (load_tools_from (load_tools_from [] ⟨0, ts1⟩) ⟨1, ts2⟩) x = _
    unfold load_tools_from
    rw [alookup_loadList 1 ts2 _ x hnd, h2]
  have hnodup : ((load_mcp_tools [⟨0, ts1⟩, ⟨1, ts2⟩]).map Prod.fst).Nodup := by
    show ((load_tools_from (load_tools_from [] ⟨0, ts1⟩) ⟨1, ts2⟩).map Prod.fst).Nodup
    apply keys_load_tools_from_nodup
    apply keys_load_tools_from_nodup
    simp
  have hmem : x ∈ (load_mcp_tools [⟨0, ts1⟩, ⟨1, ts2⟩]).map Prod.fst := by
    apply mem_of_alookup_isSome
    rw [hlook]
    rfl
  exact ⟨rfl, hlook, List.count_eq_one_of_mem hnodup hmem⟩

theorem claim_C8_witness :
    alookup (initAll [some [("x", calculatorDesc)], some [("x", wikipediaDesc)]]).2.2 "x" =
      some ⟨1, "x", wikipediaDesc⟩ :=
  (claim_C8_last_wins [("x", calculatorDesc)] [("x", wikipediaDesc)] "x" wikipediaDesc
    (by decide) (by decide) (by decide)).2.1

/-- C9: Two tools/list requests against a server with an unchanged
registry are both answered with the same descriptor list, in
registration order. -/
theorem claim_C9_toolslist_idempotent :
    ∀ (s : MCPServer) (i j : Int),
      run_stdio s [Line.parsed (toolsListReq i), Line.parsed (toolsListReq j)] =
        [⟨some i, some (ResultObj.toolsList (s.tools.map Prod.snd)), none⟩,
         ⟨some j, some (ResultObj.toolsList (s.tools.map Prod.snd)), none⟩] :=
  fun s i j => rfl

/-- C10: Calculator.execute returns the invalid-characters error message,
without reaching the evaluation step, whenever some character of the
stripped expression falls outside the whitelist; being a total function
of the embedding, it returns a string on every input. -/
theorem claim_C10_whitelist_gate :
    ∀ s : String,
      ((pyStrip s).toList.all (fun c => allowedChars.contains c)) = false →
      Calculator.execute s = invalidCharsMsg := by
  intro s h
  unfold Calculator.execute
  rw [h]
  rfl

theorem claim_C10_witness :
    Calculator.execute "2+x" = invalidCharsMsg :=
  claim_C10_whitelist_gate "2+x" (by decide)
